import Mathlib

/-!
Shallow embedding of the GPIO client (`src/gpio/client.ts`, class `GPIOClient`).

The client is modelled as explicit state passing: a `ClientState` records
everything the client can observe or mutate (connection started, streaming
enabled, the cached constant NumPins register, how many underlying blocking
reads that register has issued, and the list of command frames handed to the
command channel, in send order).  An `Env` records what the asynchronous
register store can deliver: the value of the NumPins register (if the device
ever answers) and the state-bitmask value available at the end of the bounded
blocking wait (absent on timeout / never-arrived).

Operations that contain an unbounded blocking wait (`pauseUntilValues()` with
no timeout, used as the connectivity gate) return `Option`: `none` models the
call never returning because no value ever arrives.
-/

namespace Gpio

/-- A wire buffer: a byte sequence (each entry intended `< 256`). -/
abbrev Buffer := List Nat

/-- Modelled from the spec: the GPIO service command opcodes
(`jacdac.GPIOCmd.*`); their numeric codes are not in the source tree, only
the four opcode names, so they are an abstract enumeration here. -/
inductive GPIOCmd where
  | Configure
  | PinInfo
  | PinByLabel
  | PinByHwPin
deriving DecidableEq, Repr

/-- A framed command as handed to `sendCommand`: opcode plus payload bytes. -/
structure JDPacket where
  cmd : GPIOCmd
  data : List Nat
deriving DecidableEq, Repr

/-- Modelled from the spec: `jacdac.GPIOMode` is a closed enumeration sent as
a single byte; the numeric codes are not in the source tree, so distinct
bytes are chosen for the variants the client mentions. -/
def GPIOMode.OutputLow : Int := 3

/-- Modelled from the spec: see `GPIOMode.OutputLow`. -/
def GPIOMode.OutputHigh : Int := 4

/-- Modelled from the spec: see `GPIOMode.OutputLow`. -/
def GPIOMode.Alternative : Int := 5

/-- Writing a JS number into a byte of a `Buffer` truncates it to an
unsigned 8-bit value (`buf[i] = x` stores `x` modulo 256). -/
def toByte (x : Int) : Nat := (x % 256).toNat

/-- What the asynchronous register store can deliver to this client. -/
structure Env where
  /-- Value of the constant NumPins register, `none` if the device never
  answers (the unbounded wait then never returns). -/
  numPinsVal : Option Nat
  /-- State-bitmask register value available when the bounded blocking wait
  in `state()` ends; `none` models "no value has ever arrived" (timeout). -/
  stateVal : Option Buffer
deriving DecidableEq, Repr

/-- The client-visible state of one `GPIOClient` instance. -/
structure ClientState where
  /-- Whether `start()` has been called. -/
  started : Bool
  /-- Whether streaming of the state register has been enabled. -/
  streaming : Bool
  /-- Cache of the constant NumPins register (`RegisterClientFlags.Const`). -/
  numPinsCache : Option Nat
  /-- How many underlying blocking reads the NumPins register has issued. -/
  numPinsReadsIssued : Nat
  /-- Frames handed to the command channel, in send order. -/
  sent : List JDPacket
deriving DecidableEq, Repr

/-- A freshly constructed client (`new GPIOClient(role)`): nothing started,
no streaming, the NumPins register cache empty, nothing sent. -/
def initialState : ClientState :=
  { started := false, streaming := false, numPinsCache := none,
    numPinsReadsIssued := 0, sent := [] }

/-- Source `this.start()`: starts the connection (idempotent flag set). -/
def startOp (c : ClientState) : ClientState := { c with started := true }

/-- Modelled from the spec: `RegisterClient.pauseUntilValues()` on the
`Const` NumPins register.  If the cache holds a value it is returned at once
with no underlying read; otherwise one blocking read is issued, and the call
returns only when the device delivers a value, which is then cached.
`none` models the call blocking forever because no value ever arrives. -/
def pauseNumPins (c : ClientState) (env : Env) : Option (Nat × ClientState) :=
  match c.numPinsCache with
  | some v => some (v, c)
  | none =>
    match env.numPinsVal with
    | some v =>
      some (v, { c with numPinsCache := some v,
                        numPinsReadsIssued := c.numPinsReadsIssued + 1 })
    | none => none

/-- Source `numPins()`: `this.start()`, then block on the NumPins register and
return its first field. -/
def numPins (c : ClientState) (env : Env) : Option (Nat × ClientState) :=
  pauseNumPins (startOp c) env

/-- Source `sendCommand(pkt)` (modelled from the spec: fire-and-forget command
channel): append the frame to the sent list. -/
def sendCommand (c : ClientState) (pkt : JDPacket) : ClientState :=
  { c with sent := c.sent ++ [pkt] }

/-- Source `state()`: enable streaming, then do a bounded blocking wait on the
reading register and return `values[0]` — absent when no value has ever
arrived by the timeout. -/
def state (c : ClientState) (env : Env) : Option Buffer × ClientState :=
  (env.stateVal, { c with streaming := true })

/-- JavaScript ToInt32: wrap an integer to the signed 32-bit range
`[-2^31, 2^31)`, as the `>>` operator does to its operands. -/
def toInt32 (x : Int) : Int := (x + 2 ^ 31) % 2 ^ 32 - 2 ^ 31

/-- JavaScript `x >> 3`: ToInt32 wrap of the operand, then arithmetic shift
right by 3, i.e. floor division of the wrapped value by 8. -/
def jsShr3 (x : Int) : Int := toInt32 x / 8

/-- Reading `buf[i]` on a byte buffer: out-of-range indices (negative or
past the end) read as 0. -/
def bufGet (buf : Buffer) (i : Int) : Nat :=
  if 0 ≤ i then buf.getD i.toNat 0 else 0

/-- Source `digitalRead(pin)`: read `state()`; absent buffer or `pin < 0` gives
`false`; a byte index at or past the buffer length gives `false`; otherwise
bit `pin % 8` of byte `pin >> 3`, where `>>` is the 32-bit shift (the
operand wraps through ToInt32) and a negative wrapped byte index reads
byte 0 out of range. -/
def digitalRead (c : ClientState) (env : Env) (pin : Int) :
    Bool × ClientState :=
  let r := state c env
  match r.1 with
  | none => (false, r.2)
  | some buf =>
    if pin < 0 then (false, r.2)
    else
      let byteIndex := jsShr3 pin
      if byteIndex ≥ (buf.length : Int) then (false, r.2)
      else (((bufGet buf byteIndex >>> (pin % 8).toNat) &&& 1) == 1, r.2)

/-- Source `configure(pin, mode)`: `start()`, block on NumPins as a connectivity
gate, then send the 2-byte frame `[pin, mode]` on the Configure opcode. -/
def configure (c : ClientState) (env : Env) (pin mode : Int) :
    Option ClientState :=
  match pauseNumPins (startOp c) env with
  | none => none
  | some (_, c₁) =>
    some (sendCommand c₁ ⟨GPIOCmd.Configure, [toByte pin, toByte mode]⟩)

/-- Source `digitalWrite(pin, high)`: `configure(pin, high ? OutputHigh :
OutputLow)`. -/
def digitalWrite (c : ClientState) (env : Env) (pin : Int) (high : Bool) :
    Option ClientState :=
  configure c env pin
    (if high then GPIOMode.OutputHigh else GPIOMode.OutputLow)

/-- Source `requestPinInfo(pin)`: gate on connectivity, then send the 1-byte frame
`[pin]` on the PinInfo opcode. -/
def requestPinInfo (c : ClientState) (env : Env) (pin : Int) :
    Option ClientState :=
  match pauseNumPins (startOp c) env with
  | none => none
  | some (_, c₁) => some (sendCommand c₁ ⟨GPIOCmd.PinInfo, [toByte pin]⟩)

/-- Modelled from the spec: `JDPacket.jdpacked` with the PinByLabel format
packs the single string argument as its character codes. -/
def packLabel (s : String) : List Nat := s.toList.map Char.toNat

/-- Modelled from the spec: decoding a packed string payload back to the
string (inverse of `packLabel`). -/
def unpackLabel (bs : List Nat) : String :=
  String.mk (bs.map Char.ofNat)

/-- Source `requestPinByLabel(label)`: gate on connectivity, then send the packed
string payload on the PinByLabel opcode. -/
def requestPinByLabel (c : ClientState) (env : Env) (label : String) :
    Option ClientState :=
  match pauseNumPins (startOp c) env with
  | none => none
  | some (_, c₁) =>
    some (sendCommand c₁ ⟨GPIOCmd.PinByLabel, packLabel label⟩)

/-- Source `requestPinByHwPin(hwPin)`: gate on connectivity, then send the 1-byte
frame `[hwPin]` on the PinByHwPin opcode. -/
def requestPinByHwPin (c : ClientState) (env : Env) (hwPin : Int) :
    Option ClientState :=
  match pauseNumPins (startOp c) env with
  | none => none
  | some (_, c₁) => some (sendCommand c₁ ⟨GPIOCmd.PinByHwPin, [toByte hwPin]⟩)

/-- Repeated calls of `numPins()` on one client, threading the state;
`none` when some call blocks forever. -/
def iterNumPins : Nat → ClientState → Env → Option ClientState
  | 0, c, _ => some c
  | k + 1, c, env =>
    match numPins c env with
    | none => none
    | some (_, c₁) => iterNumPins k c₁ env

/-! ### Helper lemmas (shared, not tied to a single claim) -/

/-- A resolved connectivity gate only touches the NumPins cache and read
counter: started/streaming/sent are those of the incoming state, and the
cache now holds the returned value. -/
theorem pauseNumPins_some_spec (c : ClientState) (env : Env) (n : Nat)
    (c₁ : ClientState) (h : pauseNumPins c env = some (n, c₁)) :
    c₁.started = c.started ∧ c₁.streaming = c.streaming ∧
    c₁.numPinsCache = some n ∧ c₁.sent = c.sent := by
  unfold pauseNumPins at h
  cases hc : c.numPinsCache with
  | some v =>
    rw [hc] at h
    simp only [Option.some.injEq, Prod.mk.injEq] at h
    obtain ⟨hv, hcc⟩ := h
    subst hv
    subst hcc
    exact ⟨rfl, rfl, hc, rfl⟩
  | none =>
    rw [hc] at h
    cases he : env.numPinsVal with
    | some v =>
      rw [he] at h
      simp only [Option.some.injEq, Prod.mk.injEq] at h
      obtain ⟨hv, hcc⟩ := h
      subst hv
      subst hcc
      exact ⟨rfl, rfl, rfl, rfl⟩
    | none =>
      rw [he] at h
      exact absurd h (by simp)

/-- The state part of `digitalRead` is the incoming state with streaming
enabled, in every branch. -/
theorem digitalRead_snd (c : ClientState) (env : Env) (pin : Int) :
    (digitalRead c env pin).2 = { c with streaming := true } := by
  unfold digitalRead state
  cases env.stateVal with
  | none => rfl
  | some buf =>
    by_cases hneg : pin < 0
    · simp [hneg]
    · by_cases hlen : jsShr3 pin ≥ (buf.length : Int)
      · simp [hneg, hlen]
      · simp [hneg, hlen]

/-- Bit test as the source computes it agrees with `Nat.testBit`. -/
theorem shift_and_one_eq_testBit (m b : Nat) :
    (((m >>> b) &&& 1) == 1) = Nat.testBit m b := by
  simp [Nat.testBit]

/-- Reading inside a replicated list yields the replicated element. -/
theorem getD_replicate_self (n i a : Nat) (h : i < n) :
    (List.replicate n a).getD i 0 = a := by
  rw [List.getD_eq_getElem _ _ (by rw [List.length_replicate]; omega)]
  exact List.getElem_replicate ..

/-! ### Claim theorems -/

/-- C1: for every call `digitalRead(pin)`: if the state bitmask is absent,
or `pin < 0`, or `pin >> 3` (the 32-bit shift, so the operand wraps through
ToInt32) reaches or exceeds the bitmask length, the result is `false`;
otherwise the result is bit `pin % 8` of byte `pin >> 3` of the bitmask,
where an out-of-range (negative, after wrapping) byte index reads as 0
(the call is a total function — it never fails or aborts). -/
theorem digitalRead_decode (c : ClientState) (env : Env) (pin : Int) :
    (env.stateVal = none → (digitalRead c env pin).1 = false) ∧
    (pin < 0 → (digitalRead c env pin).1 = false) ∧
    (∀ buf : Buffer, env.stateVal = some buf → 0 ≤ pin →
      (buf.length : Int) ≤ jsShr3 pin → (digitalRead c env pin).1 = false) ∧
    (∀ buf : Buffer, env.stateVal = some buf → 0 ≤ pin →
      jsShr3 pin < (buf.length : Int) →
      (digitalRead c env pin).1 =
        Nat.testBit (bufGet buf (jsShr3 pin)) (pin % 8).toNat) := by
  refine ⟨?_, ?_, ?_, ?_⟩
  · intro h
    simp [digitalRead, state, h]
  · intro h
    cases he : env.stateVal with
    | none => simp [digitalRead, state, he]
    | some buf => simp [digitalRead, state, he, h]
  · intro buf hbuf hpin hlen
    simp [digitalRead, state, hbuf, not_lt.2 hpin, hlen]
  · intro buf hbuf hpin hlen
    simp only [digitalRead, state, hbuf, if_neg (not_lt.2 hpin),
      if_neg (not_le.2 hlen)]
    exact shift_and_one_eq_testBit _ _

/-- Witness for C1: concrete evaluations at buffer `[5]` — absent buffer,
negative pin, out-of-range pin, and an in-range pin. -/
theorem digitalRead_decode_witness :
    (digitalRead initialState ⟨none, none⟩ 0).1 = false ∧
    (digitalRead initialState ⟨none, some [5]⟩ (-3)).1 = false ∧
    (digitalRead initialState ⟨none, some [5]⟩ 8).1 = false ∧
    (digitalRead initialState ⟨none, some [5]⟩ 2).1 =
      Nat.testBit (bufGet [5] (jsShr3 2)) ((2 : Int) % 8).toNat :=
  ⟨(digitalRead_decode initialState ⟨none, none⟩ 0).1 rfl,
   (digitalRead_decode initialState ⟨none, some [5]⟩ (-3)).2.1 (by decide),
   (digitalRead_decode initialState ⟨none, some [5]⟩ 8).2.2.1 [5] rfl
     (by decide) (by decide),
   (digitalRead_decode initialState ⟨none, some [5]⟩ 2).2.2.2 [5] rfl
     (by decide) (by decide)⟩

/-- Counterexample to C2 as stated: in a state buffer of `2^28 + 1` bytes
all equal to `0x01`, byte `k = 2^28` has bit `b = 0` set, yet
`digitalRead (8*k + b)` returns `false`: the source's 32-bit shift wraps
pin `2^31` to byte index `-2^28`, which reads out of range as 0. -/
theorem digitalRead_roundTrip_cex :
    (2 ^ 28 : Nat) < (List.replicate (2 ^ 28 + 1) 1 : Buffer).length ∧
    Nat.testBit ((List.replicate (2 ^ 28 + 1) 1 : Buffer).getD (2 ^ 28) 0) 0 =
      true ∧
    (0 : Nat) < 8 ∧
    (digitalRead initialState ⟨none, some (List.replicate (2 ^ 28 + 1) 1)⟩
        ((8 * 2 ^ 28 + 0 : Nat) : Int)).1 = false := by
  refine ⟨by rw [List.length_replicate]; omega, ?_, by decide, ?_⟩
  · rw [getD_replicate_self _ _ _ (by omega)]
    decide
  · have hneg : ¬ ((8 * 2 ^ 28 + 0 : Nat) : Int) < 0 :=
      not_lt.2 (Int.natCast_nonneg _)
    have hshr : jsShr3 ((8 * 2 ^ 28 + 0 : Nat) : Int) = -(2 ^ 28 : Int) := by
      unfold jsShr3 toInt32
      decide
    have hlenr :
        (((List.replicate (2 ^ 28 + 1) 1 : Buffer)).length : Int) =
          2 ^ 28 + 1 := by
      rw [List.length_replicate]
      rfl
    have hguard : ¬ ((-(2 ^ 28 : Int)) ≥
        (((List.replicate (2 ^ 28 + 1) 1 : Buffer)).length : Int)) := by
      rw [hlenr]
      decide
    have hget :
        bufGet (List.replicate (2 ^ 28 + 1) 1) (-(2 ^ 28 : Int)) = 0 := by
      unfold bufGet
      rw [if_neg (by decide)]
    simp only [digitalRead, state, if_neg hneg]
    rw [hshr, if_neg hguard, hget]
    decide

/-- C2 (amended): bitmask decode round-trip (LSB-first per byte) for pins
below `2^31`, where the source's 32-bit byte-index shift does not wrap:
for a present state buffer, byte index `k` in range, bit `b < 8` and
`8*k + b < 2^31`, `digitalRead (8*k+b)` returns exactly bit `b` of byte
`k`; and the scenario for buffer `[0b00000101]`: pins 0 and 2 read `true`,
pins 1 and 3 read `false`. -/
theorem digitalRead_roundTrip (c : ClientState) (env : Env) (buf : Buffer)
    (k b : Nat) (hbuf : env.stateVal = some buf) (hk : k < buf.length)
    (hb : b < 8) (h31 : 8 * k + b < 2 ^ 31) :
    (digitalRead c env ((8 * k + b : Nat) : Int)).1 =
      Nat.testBit (buf.getD k 0) b ∧
    ((digitalRead initialState ⟨none, some [5]⟩ 0).1 = true ∧
     (digitalRead initialState ⟨none, some [5]⟩ 1).1 = false ∧
     (digitalRead initialState ⟨none, some [5]⟩ 2).1 = true ∧
     (digitalRead initialState ⟨none, some [5]⟩ 3).1 = false) := by
  constructor
  · have hneg : ¬ ((8 * k + b : Nat) : Int) < 0 :=
      not_lt.2 (Int.natCast_nonneg _)
    have hshr : jsShr3 ((8 * k + b : Nat) : Int) = (k : Int) := by
      unfold jsShr3 toInt32
      omega
    have hguard : ¬ ((k : Int) ≥ (buf.length : Int)) := by omega
    have hbit : (((8 * k + b : Nat) : Int) % 8).toNat = b := by omega
    have hget : bufGet buf (k : Int) = buf.getD k 0 := by
      unfold bufGet
      simp
    simp only [digitalRead, state, hbuf, if_neg hneg]
    rw [hshr, if_neg hguard, hget, hbit]
    exact shift_and_one_eq_testBit _ _
  · exact ⟨by decide, by decide, by decide, by decide⟩

/-- Witness for C2: the round-trip applied to buffer `[5]`, byte 0, bit 2. -/
theorem digitalRead_roundTrip_witness :
    (digitalRead initialState ⟨none, some [5]⟩ ((8 * 0 + 2 : Nat) : Int)).1 =
      Nat.testBit (([5] : Buffer).getD 0 0) 2 :=
  (digitalRead_roundTrip initialState ⟨none, some [5]⟩ [5] 0 2 rfl
    (by decide) (by decide) (by decide)).1

/-- C5: no operation terminates on a failure path: when the bounded wait
ends with no value available, `state()` yields an absent result and
`digitalRead` returns `false` — benign defaults, not fatal errors. -/
theorem benign_defaults (c : ClientState) (env : Env) (pin : Int)
    (h : env.stateVal = none) :
    (state c env).1 = none ∧ (digitalRead c env pin).1 = false := by
  constructor
  · simp [state, h]
  · simp [digitalRead, state, h]

/-- Witness for C5: a fresh client with no state value ever delivered. -/
theorem benign_defaults_witness :
    (state initialState ⟨none, none⟩).1 = none ∧
    (digitalRead initialState ⟨none, none⟩ 0).1 = false :=
  benign_defaults initialState ⟨none, none⟩ 0 rfl

/-- C10: the read path sends no commands: the only state change of
`state()` and `digitalRead` is enabling streaming — the sent-frame list,
the started flag, the cached NumPins register and its read counter are
all untouched. -/
theorem read_path_no_commands (c : ClientState) (env : Env) (pin : Int) :
    (state c env).2 = { c with streaming := true } ∧
    (digitalRead c env pin).2 = { c with streaming := true } ∧
    (digitalRead c env pin).2.sent = c.sent ∧
    (digitalRead c env pin).2.started = c.started ∧
    (digitalRead c env pin).2.numPinsCache = c.numPinsCache ∧
    (digitalRead c env pin).2.numPinsReadsIssued = c.numPinsReadsIssued ∧
    (digitalRead c env pin).2.streaming = true := by
  have h := digitalRead_snd c env pin
  exact ⟨rfl, h, by rw [h], by rw [h], by rw [h], by rw [h], by rw [h]⟩

/-- The last element of a list with one frame appended is that frame. -/
theorem getLast?_append_singleton {α : Type} (l : List α) (a : α) :
    (l ++ [a]).getLast? = some a :=
  List.getLast?_concat ..

/-- Starting an already-started client changes nothing. -/
theorem startOp_started (c : ClientState) (h : c.started = true) :
    startOp c = c := by
  unfold startOp
  cases c
  simp_all

/-- C3: `digitalWrite(pin, high)` is exactly
`configure(pin, high ? OutputHigh : OutputLow)`, and once the connectivity
gate resolves, the last sent frame after `digitalWrite(pin, true)` is
`[pin, OutputHigh]` on the Configure opcode, and after
`digitalWrite(pin, false)` it is `[pin, OutputLow]`. -/
theorem digitalWrite_sugar (c : ClientState) (env : Env) (pin : Int) :
    (∀ high : Bool, digitalWrite c env pin high =
       configure c env pin
         (if high then GPIOMode.OutputHigh else GPIOMode.OutputLow)) ∧
    (∀ (n : Nat) (c₁ : ClientState),
       pauseNumPins (startOp c) env = some (n, c₁) →
       (∃ c₂, digitalWrite c env pin true = some c₂ ∧
          c₂.sent.getLast? =
            some ⟨GPIOCmd.Configure,
                  [toByte pin, toByte GPIOMode.OutputHigh]⟩) ∧
       (∃ c₂, digitalWrite c env pin false = some c₂ ∧
          c₂.sent.getLast? =
            some ⟨GPIOCmd.Configure,
                  [toByte pin, toByte GPIOMode.OutputLow]⟩)) := by
  refine ⟨fun _ => rfl, ?_⟩
  intro n c₁ h
  constructor
  · refine ⟨sendCommand c₁
      ⟨GPIOCmd.Configure, [toByte pin, toByte GPIOMode.OutputHigh]⟩, ?_, ?_⟩
    · show configure c env pin GPIOMode.OutputHigh = _
      unfold configure
      rw [h]
    · exact getLast?_append_singleton ..
  · refine ⟨sendCommand c₁
      ⟨GPIOCmd.Configure, [toByte pin, toByte GPIOMode.OutputLow]⟩, ?_, ?_⟩
    · show configure c env pin GPIOMode.OutputLow = _
      unfold configure
      rw [h]
    · exact getLast?_append_singleton ..

/-- Witness for C3: fresh client, device reporting 4 pins, pin 2. -/
theorem digitalWrite_sugar_witness :
    (∃ c₂, digitalWrite initialState ⟨some 4, none⟩ 2 true = some c₂ ∧
       c₂.sent.getLast? =
         some ⟨GPIOCmd.Configure,
               [toByte 2, toByte GPIOMode.OutputHigh]⟩) ∧
    (∃ c₂, digitalWrite initialState ⟨some 4, none⟩ 2 false = some c₂ ∧
       c₂.sent.getLast? =
         some ⟨GPIOCmd.Configure,
               [toByte 2, toByte GPIOMode.OutputLow]⟩) :=
  (digitalWrite_sugar initialState ⟨some 4, none⟩ 2).2 4
    ⟨true, false, some 4, 1, []⟩ rfl

/-- C4: `configure(pin, mode)` treats the NumPins wait purely as a
connectivity gate: when the gate never resolves no frame is sent, and when
it resolves the 2-byte frame `[pin, mode]` is sent on the Configure opcode
for every `pin` — there is no bounds check of `pin` against the register
value `n`, so the frame is appended also when `pin ≥ n`. -/
theorem configure_gate (c : ClientState) (env : Env) (pin mode : Int) :
    (pauseNumPins (startOp c) env = none →
       configure c env pin mode = none) ∧
    (∀ (n : Nat) (c₁ : ClientState),
       pauseNumPins (startOp c) env = some (n, c₁) →
       ∃ c₂, configure c env pin mode = some c₂ ∧
         c₂.sent = c.sent ++ [⟨GPIOCmd.Configure, [toByte pin, toByte mode]⟩] ∧
         c₂.started = true ∧ c₂.numPinsCache = some n) := by
  constructor
  · intro h
    unfold configure
    rw [h]
  · intro n c₁ h
    obtain ⟨hst, hstr, hcache, hsent⟩ := pauseNumPins_some_spec _ env n c₁ h
    refine ⟨sendCommand c₁ ⟨GPIOCmd.Configure, [toByte pin, toByte mode]⟩,
      ?_, ?_, ?_, ?_⟩
    · unfold configure
      rw [h]
    · simp [sendCommand, hsent, startOp]
    · simp [sendCommand, hst, startOp]
    · simp [sendCommand, hcache]

/-- Witness for C4: device reports 4 pins yet pin 100 is configured and the
frame for pin 100 is still sent. -/
theorem configure_gate_witness :
    (100 : Int) ≥ (4 : Nat) ∧
    (∃ c₂, configure initialState ⟨some 4, none⟩ 100 GPIOMode.Alternative =
        some c₂ ∧
      c₂.sent = ([] : List JDPacket) ++
        [⟨GPIOCmd.Configure, [toByte 100, toByte GPIOMode.Alternative]⟩] ∧
      c₂.started = true ∧ c₂.numPinsCache = some 4) :=
  ⟨by decide,
   (configure_gate initialState ⟨some 4, none⟩ 100 GPIOMode.Alternative).2 4
     ⟨true, false, some 4, 1, []⟩ rfl⟩

/-- The invariant backing C6: the read counter never exceeds one, and it is
still zero while the cache is empty. -/
def ReadInv (c : ClientState) : Prop :=
  c.numPinsReadsIssued ≤ 1 ∧
  (c.numPinsCache = none → c.numPinsReadsIssued = 0)

/-- One `numPins()` call preserves `ReadInv`. -/
theorem numPins_step_inv (c : ClientState) (env : Env) (v : Nat)
    (c₁ : ClientState) (hInv : ReadInv c)
    (h : numPins c env = some (v, c₁)) : ReadInv c₁ := by
  unfold numPins at h
  obtain ⟨hst, hstr, hcache, hsent⟩ := pauseNumPins_some_spec _ env v c₁ h
  unfold pauseNumPins at h
  cases hc : c.numPinsCache with
  | some w =>
    have hc' : (startOp c).numPinsCache = some w := hc
    rw [hc'] at h
    simp only [Option.some.injEq, Prod.mk.injEq] at h
    obtain ⟨hv, hcc⟩ := h
    subst hcc
    exact ⟨hInv.1, fun hn => absurd (hc ▸ hn) (by simp)⟩
  | none =>
    have hc' : (startOp c).numPinsCache = none := hc
    rw [hc'] at h
    cases he : env.numPinsVal with
    | some w =>
      rw [he] at h
      simp only [Option.some.injEq, Prod.mk.injEq] at h
      obtain ⟨hv, hcc⟩ := h
      subst hcc
      refine ⟨?_, fun hn => absurd hn (by simp)⟩
      have h0 : c.numPinsReadsIssued = 0 := hInv.2 hc
      simp [startOp, h0]
    | none =>
      rw [he] at h
      exact absurd h (by simp)

/-- Iterated `numPins()` calls preserve `ReadInv`. -/
theorem iterNumPins_inv (env : Env) :
    ∀ (k : Nat) (c : ClientState), ReadInv c →
      ∀ c', iterNumPins k c env = some c' → ReadInv c' := by
  intro k
  induction k with
  | zero =>
    intro c hInv c' h
    simp only [iterNumPins, Option.some.injEq] at h
    exact h ▸ hInv
  | succ k ih =>
    intro c hInv c' h
    simp only [iterNumPins] at h
    cases hn : numPins c env with
    | none => rw [hn] at h; exact absurd h (by simp)
    | some p =>
      rw [hn] at h
      exact ih p.2 (numPins_step_inv c env p.1 p.2 hInv (by rw [hn])) c' h

/-- C6: across every sequence of repeated `numPins()` calls on one client,
at most one underlying blocking read is issued; and once a call has
succeeded, a subsequent call returns the same cached value immediately
with no state change at all (hence no further read). -/
theorem numPins_single_read (env : Env) :
    (∀ (k : Nat) (c' : ClientState),
       iterNumPins k initialState env = some c' →
       c'.numPinsReadsIssued ≤ 1) ∧
    (∀ (c : ClientState) (v : Nat) (c₁ : ClientState),
       numPins c env = some (v, c₁) →
       numPins c₁ env = some (v, c₁)) := by
  constructor
  · intro k c' h
    exact (iterNumPins_inv env k initialState ⟨by decide, fun _ => rfl⟩ c' h).1
  · intro c v c₁ h
    obtain ⟨hst, hstr, hcache, hsent⟩ := pauseNumPins_some_spec _ env v c₁ h
    have hs : startOp c₁ = c₁ :=
      startOp_started c₁ (by rw [hst]; rfl)
    show pauseNumPins (startOp c₁) env = some (v, c₁)
    rw [hs]
    unfold pauseNumPins
    rw [hcache]

/-- Witness for C6: three successive `numPins()` calls against a device
reporting 4 pins issue one read, and a repeated call is a no-op. -/
theorem numPins_single_read_witness :
    (⟨true, false, some 4, 1, []⟩ : ClientState).numPinsReadsIssued ≤ 1 ∧
    numPins ⟨true, false, some 4, 1, []⟩ ⟨some 4, none⟩ =
      some (4, ⟨true, false, some 4, 1, []⟩) :=
  ⟨(numPins_single_read ⟨some 4, none⟩).1 3 ⟨true, false, some 4, 1, []⟩ rfl,
   (numPins_single_read ⟨some 4, none⟩).2 initialState 4
     ⟨true, false, some 4, 1, []⟩ rfl⟩

/-- C7: `requestPinInfo(pin)` sends the 1-byte frame `[pin]` on the PinInfo
opcode and `requestPinByHwPin(hwPin)` the 1-byte frame `[hwPin]` on the
PinByHwPin opcode; in both, the frame is appended only to a state in which
the connection is started and NumPins has a value (the gate precedes the
send), and no frame is sent when the gate never resolves. -/
theorem requestPin_frames (c : ClientState) (env : Env) (pin hwPin : Int) :
    (pauseNumPins (startOp c) env = none →
       requestPinInfo c env pin = none ∧
       requestPinByHwPin c env hwPin = none) ∧
    (∀ (n : Nat) (c₁ : ClientState),
       pauseNumPins (startOp c) env = some (n, c₁) →
       c₁.started = true ∧ c₁.numPinsCache = some n ∧ c₁.sent = c.sent ∧
       requestPinInfo c env pin =
         some (sendCommand c₁ ⟨GPIOCmd.PinInfo, [toByte pin]⟩) ∧
       requestPinByHwPin c env hwPin =
         some (sendCommand c₁ ⟨GPIOCmd.PinByHwPin, [toByte hwPin]⟩) ∧
       (sendCommand c₁ ⟨GPIOCmd.PinInfo, [toByte pin]⟩).sent =
         c.sent ++ [⟨GPIOCmd.PinInfo, [toByte pin]⟩] ∧
       (sendCommand c₁ ⟨GPIOCmd.PinByHwPin, [toByte hwPin]⟩).sent =
         c.sent ++ [⟨GPIOCmd.PinByHwPin, [toByte hwPin]⟩]) := by
  constructor
  · intro h
    constructor
    · unfold requestPinInfo
      rw [h]
    · unfold requestPinByHwPin
      rw [h]
  · intro n c₁ h
    obtain ⟨hst, hstr, hcache, hsent⟩ := pauseNumPins_some_spec _ env n c₁ h
    refine ⟨?_, hcache, ?_, ?_, ?_, ?_, ?_⟩
    · rw [hst]; rfl
    · rw [hsent]; rfl
    · unfold requestPinInfo
      rw [h]
    · unfold requestPinByHwPin
      rw [h]
    · simp [sendCommand, hsent, startOp]
    · simp [sendCommand, hsent, startOp]

/-- Witness for C7: fresh client, device reporting 4 pins, pin 1, hw pin 7. -/
theorem requestPin_frames_witness :
    (⟨true, false, some 4, 1, []⟩ : ClientState).started = true ∧
    (⟨true, false, some 4, 1, []⟩ : ClientState).numPinsCache = some 4 ∧
    (⟨true, false, some 4, 1, []⟩ : ClientState).sent = initialState.sent ∧
    requestPinInfo initialState ⟨some 4, none⟩ 1 =
      some (sendCommand ⟨true, false, some 4, 1, []⟩
        ⟨GPIOCmd.PinInfo, [toByte 1]⟩) ∧
    requestPinByHwPin initialState ⟨some 4, none⟩ 7 =
      some (sendCommand ⟨true, false, some 4, 1, []⟩
        ⟨GPIOCmd.PinByHwPin, [toByte 7]⟩) ∧
    (sendCommand (⟨true, false, some 4, 1, []⟩ : ClientState)
        ⟨GPIOCmd.PinInfo, [toByte 1]⟩).sent =
      initialState.sent ++ [⟨GPIOCmd.PinInfo, [toByte 1]⟩] ∧
    (sendCommand (⟨true, false, some 4, 1, []⟩ : ClientState)
        ⟨GPIOCmd.PinByHwPin, [toByte 7]⟩).sent =
      initialState.sent ++ [⟨GPIOCmd.PinByHwPin, [toByte 7]⟩] :=
  (requestPin_frames initialState ⟨some 4, none⟩ 1 7).2 4
    ⟨true, false, some 4, 1, []⟩ rfl

/-- C8: once the gate resolves, `requestPinByLabel(label)` sends a
PinByLabel frame whose packed payload decodes back to the original
string. -/
theorem pinByLabel_roundtrip (c : ClientState) (env : Env) (label : String)
    (n : Nat) (c₁ : ClientState)
    (h : pauseNumPins (startOp c) env = some (n, c₁)) :
    ∃ c₂, requestPinByLabel c env label = some c₂ ∧
      c₂.sent.getLast? = some ⟨GPIOCmd.PinByLabel, packLabel label⟩ ∧
      unpackLabel (packLabel label) = label := by
  refine ⟨sendCommand c₁ ⟨GPIOCmd.PinByLabel, packLabel label⟩, ?_, ?_, ?_⟩
  · unfold requestPinByLabel
    rw [h]
  · exact getLast?_append_singleton ..
  · unfold unpackLabel packLabel
    rw [List.map_map]
    have hid : Char.ofNat ∘ Char.toNat = id :=
      funext fun ch => Char.ofNat_toNat ch
    rw [hid, List.map_id]
    cases label
    rfl

/-- Witness for C8: `requestPinByLabel("A0")` on a fresh client with a
device reporting 4 pins. -/
theorem pinByLabel_roundtrip_witness :
    ∃ c₂, requestPinByLabel initialState ⟨some 4, none⟩ "A0" = some c₂ ∧
      c₂.sent.getLast? = some ⟨GPIOCmd.PinByLabel, packLabel "A0"⟩ ∧
      unpackLabel (packLabel "A0") = "A0" :=
  pinByLabel_roundtrip initialState ⟨some 4, none⟩ "A0" 4
    ⟨true, false, some 4, 1, []⟩ rfl

/-- C9: the command-frame bytes are the integer arguments truncated to
unsigned 8-bit values: `configure` sends `[pin mod 256, mode mod 256]`,
`requestPinInfo` sends `[pin mod 256]` and `requestPinByHwPin` sends
`[hwPin mod 256]` — arguments outside `[0, 255]` are silently wrapped,
never rejected. -/
theorem frame_byte_wrapping (c : ClientState) (env : Env)
    (pin mode hwPin : Int) (n : Nat) (c₁ : ClientState)
    (h : pauseNumPins (startOp c) env = some (n, c₁)) :
    configure c env pin mode =
      some (sendCommand c₁
        ⟨GPIOCmd.Configure, [(pin % 256).toNat, (mode % 256).toNat]⟩) ∧
    requestPinInfo c env pin =
      some (sendCommand c₁ ⟨GPIOCmd.PinInfo, [(pin % 256).toNat]⟩) ∧
    requestPinByHwPin c env hwPin =
      some (sendCommand c₁ ⟨GPIOCmd.PinByHwPin, [(hwPin % 256).toNat]⟩) := by
  refine ⟨?_, ?_, ?_⟩
  · unfold configure
    rw [h]
    rfl
  · unfold requestPinInfo
    rw [h]
    rfl
  · unfold requestPinByHwPin
    rw [h]
    rfl

/-- Witness for C9: out-of-range arguments 300, -1 and 256 wrap to the
bytes 44, 255 and 0. -/
theorem frame_byte_wrapping_witness :
    configure initialState ⟨some 4, none⟩ 300 (-1) =
      some (sendCommand ⟨true, false, some 4, 1, []⟩
        ⟨GPIOCmd.Configure, [44, 255]⟩) ∧
    requestPinInfo initialState ⟨some 4, none⟩ 300 =
      some (sendCommand ⟨true, false, some 4, 1, []⟩
        ⟨GPIOCmd.PinInfo, [44]⟩) ∧
    requestPinByHwPin initialState ⟨some 4, none⟩ 256 =
      some (sendCommand ⟨true, false, some 4, 1, []⟩
        ⟨GPIOCmd.PinByHwPin, [0]⟩) :=
  frame_byte_wrapping initialState ⟨some 4, none⟩ 300 (-1) 256 4
    ⟨true, false, some 4, 1, []⟩ rfl

end Gpio
